import Mathlib

/-
Verification of the CourseCompass extraction / normalization / reconciliation
pipeline against its natural-language specification.

The Python sources are shallowly embedded as executable Lean definitions:
  * `process_pdfs.py` : `extract_course_info_from_bytes` (filename/text field
    extractor).  The regex searches of the source are embedded as explicit
    leftmost, greedy-with-backtracking scanners over `List Char`; the pattern
    classes follow Python `re` on the ASCII range.  The pdfplumber call is a
    black box: the extractor takes the extracted page text as an
    `Option String`, `none` standing for the "unreadable bytes" exception
    path (which the source turns into the empty text).
  * `scrape_professor_ratings.py` : the rating-page field extractor
    `scrape_professor_rating` (the fetched, parsed page is passed as data:
    the relevant DOM query results), and the rmp_id merge step of
    `scrape_professor_ratings_table` (`merge_rmp_ids`).
  * `clean_and_store_data.py` : the would_take_again normalization
    (`clean_would_take_again`); numbers are modelled exactly, as rationals.
  * `app_data_pipeline.py`, `standardization_sql` : trimming, the surname
    split, the windowed duplicate resolution (`resolveDuplicates`, with
    `ROW_NUMBER`'s ordering determinized as a stable first-of-group choice)
    and the 1-5 to 1-7 scale transform (`scaleTransform`).
-/

namespace CourseCompass

/-! ### Character classes (Python `re`, ASCII scope) and `str.strip` -/

/-- Python whitespace for `\s` and `str.strip`: space, tab, LF, CR, VT, FF. -/
def isPyWS (c : Char) : Bool :=
  c = ' ' || c = '\t' || c = '\n' || c = '\r' || c = '\x0b' || c = '\x0c'

/-- Python `\w` word character (ASCII scope): letter, digit or underscore. -/
def isWordChar (c : Char) : Bool := c.isAlphanum || c = '_'

/-- The separator class `[._\s]` of the course-code pattern. -/
def isSepChar (c : Char) : Bool := c = '.' || c = '_' || isPyWS c

/-- Python `str.strip` on a character list: drop leading and trailing whitespace. -/
def pyStripL (cs : List Char) : List Char :=
  ((cs.dropWhile isPyWS).reverse.dropWhile isPyWS).reverse

/-- Python `str.strip` on strings. -/
def pyStrip (s : String) : String := (pyStripL s.data).asString

/-! ### Regex scanners of `extract_course_info_from_bytes` (process_pdfs.py) -/

/-- Scan for the closing pair of dollar signs of `\$\$(.*?)\$\$`: lazy group,
`.` does not match a newline.  Returns the group content. -/
def dollarClose : List Char → List Char → Option (List Char)
  | '$' :: '$' :: _, acc => some acc.reverse
  | c :: rest, acc => if c = '\n' then none else dollarClose rest (c :: acc)
  | [], _ => none

/-- `re.search(r'\$\$(.*?)\$\$', s)`: leftmost pair of dollar signs admitting a
close before a newline; group 1 content. -/
def profFind : List Char → Option (List Char)
  | '$' :: '$' :: rest =>
    (match dollarClose rest [] with
     | some content => some content
     | none => profFind rest)
  | _ :: rest => profFind rest
  | [] => none

/-- `re.search(r'^(SP|FL)(\d{4})', s)`: anchored at the start; returns the
season code and the four digits. -/
def semFind : List Char → Option (String × String)
  | c1 :: c2 :: y1 :: y2 :: y3 :: y4 :: _ =>
    if ((c1 = 'S' && c2 = 'P') || (c1 = 'F' && c2 = 'L'))
        && (y1.isDigit && y2.isDigit && y3.isDigit && y4.isDigit) then
      some (([c1, c2]).asString, ([y1, y2, y3, y4]).asString)
    else none
  | _ => none

/-- Length of the maximal prefix of `cs` whose characters satisfy `p`
(the greedy extent of a `X+` / `X*` atom). -/
def runLen (p : Char → Bool) : List Char → Nat
  | [] => 0
  | c :: rest => if p c then runLen p rest + 1 else 0

/-- Backtracking driver: try `f n`, `f (n-1)`, ..., `f 1` (greedy: the longest
extent first, at least one character). -/
def tryDown (f : Nat → Option α) : Nat → Option α
  | 0 => none
  | n + 1 =>
    match f (n + 1) with
    | some r => some r
    | none => tryDown f n

/-- Final `(\d+)` of the course pattern: needs at least one digit; captures the
maximal digit run (nothing follows it in the pattern). -/
def matchDigits (w : List Char) (cs : List Char) : Option (String × String) :=
  let d := runLen Char.isDigit cs
  if d = 0 then none else some (w.asString, (cs.take d).asString)

/-- `[._\s]+(\d+)` after the word token. -/
def matchSep2 (w : List Char) (cs : List Char) : Option (String × String) :=
  tryDown (fun s2 => matchDigits w (cs.drop s2)) (runLen isSepChar cs)

/-- `(\w+)[._\s]+(\d+)` after the first separator run. -/
def matchWord (cs : List Char) : Option (String × String) :=
  tryDown (fun w => matchSep2 (cs.take w) (cs.drop w)) (runLen isWordChar cs)

/-- `[._\s]+(\w+)[._\s]+(\d+)` after the anchor token. -/
def matchAnchorTail (cs : List Char) : Option (String × String) :=
  tryDown (fun s1 => matchWord (cs.drop s1)) (runLen isSepChar cs)

/-- `re.search(r'(L24|E81)[._\s]+(\w+)[._\s]+(\d+)', s)`: leftmost anchor
position where the tail matches; returns (course code, section) captures. -/
def crsFind : List Char → Option (String × String)
  | [] => none
  | c :: rest =>
    if (c :: rest).take 3 = ['L', '2', '4'] || (c :: rest).take 3 = ['E', '8', '1'] then
      match matchAnchorTail ((c :: rest).drop 3) with
      | some r => some r
      | none => crsFind rest
    else crsFind rest

/-- Decimal value of a digit run. -/
def digitsToNat (ds : List Char) : Nat :=
  ds.foldl (fun a c => 10 * a + (c.toNat - 48)) 0

/-- `[-_]?(\d+)` after the `RMP` literal; `int(...)` of the digit capture. -/
def rmpTail (cs : List Char) : Option Nat :=
  let cs1 := match cs with
    | c :: rest => if c = '-' || c = '_' then rest else cs
    | [] => cs
  let d := runLen Char.isDigit cs1
  if d = 0 then none else some (digitsToNat (cs1.take d))

/-- `re.search(r'RMP[-_]?(\d+)', s, re.IGNORECASE)`. -/
def rmpFind : List Char → Option Nat
  | [] => none
  | c :: rest =>
    if ((c :: rest).take 3).map Char.toUpper = ['R', 'M', 'P'] then
      match rmpTail ((c :: rest).drop 3) with
      | some n => some n
      | none => rmpFind rest
    else rmpFind rest

/-- Scan for the `(` closing `(.*?)\(`: lazy group, stops at a newline. -/
def nameGroup : List Char → List Char → Option (List Char)
  | '(' :: _, acc => some acc.reverse
  | c :: rest, acc => if c = '\n' then none else nameGroup rest (c :: acc)
  | [], _ => none

/-- Scan for `- ` after the lazy gap `.*?` (no newline may be crossed), then
the group up to `(`; on an inner failure the gap is extended by one. -/
def nameGap : List Char → Option (List Char)
  | [] => none
  | '-' :: ' ' :: rest =>
    (match nameGroup rest [] with
     | some g => some g
     | none => nameGap (' ' :: rest))
  | c :: rest => if c = '\n' then none else nameGap rest

/-- `re.search(r'Reports for .*?- (.*?)\(', text)`: group 1 content. -/
def nameFind : List Char → Option String
  | [] => none
  | c :: rest =>
    if (c :: rest).take 12 = ("Reports for ").data then
      match nameGap ((c :: rest).drop 12) with
      | some g => some g.asString
      | none => nameFind rest
    else nameFind rest

/-- `\s*(\d+\.\d+)` after the rating label; `float(...)` of the capture,
modelled exactly as a rational. -/
def ratingTail (cs : List Char) : Option ℚ :=
  let cs1 := cs.dropWhile isPyWS
  let d1 := runLen Char.isDigit cs1
  if d1 = 0 then none
  else
    match cs1.drop d1 with
    | '.' :: cs2 =>
      let d2 := runLen Char.isDigit cs2
      if d2 = 0 then none
      else some (mkRat (digitsToNat (cs1.take d1) * 10 ^ d2 + digitsToNat (cs2.take d2) : Nat)
        (10 ^ d2))
    | _ => none

/-- `re.search(r'Overall Rating:\s*(\d+\.\d+)', text)`. -/
def rateFind : List Char → Option ℚ
  | [] => none
  | c :: rest =>
    if (c :: rest).take 15 = ("Overall Rating:").data then
      match ratingTail ((c :: rest).drop 15) with
      | some q => some q
      | none => rateFind rest
    else rateFind rest

/-! ### The filename/text field extractor -/

/-- The record returned by `extract_course_info_from_bytes`.  The `section`
column is spelled `section_` (Lean keyword). -/
structure CourseFragment where
  filename : String
  professor : String
  semester : String
  course_code : String
  section_ : String
  course_name : String
  overall_rating : Option ℚ
  rmp_id : Option Nat
deriving Repr, DecidableEq

/-- The text the extractor works on: the page text when pdfplumber succeeded,
the empty string on the exception path (`text = ""`). -/
def textOf : Option String → String
  | some t => t
  | none => ""

/-- `extract_course_info_from_bytes (file_bytes, filename)` of
`process_pdfs.py`.  The pdfplumber text extraction is a black box: `pdfText`
is the concatenated page text, `none` standing for the exception path, which
the source maps to the empty text. -/
def extract_course_info_from_bytes (pdfText : Option String) (filename : String) :
    CourseFragment :=
  let fn := pyStrip filename
  let cs := fn.data
  let professor := match profFind cs with
    | some p => p.asString
    | none => "Unknown"
  let semester := match semFind cs with
    | some (code, year) => code ++ " " ++ year
    | none => "Unknown"
  let crs := match crsFind cs with
    | some r => r
    | none => ("Unknown", "Unknown")
  let rmp_id := rmpFind cs
  let text := textOf pdfText
  let course_name := match nameFind text.data with
    | some g => pyStrip g
    | none => "Unknown"
  { filename := fn, professor := professor, semester := semester,
    course_code := crs.1, section_ := crs.2, course_name := course_name,
    overall_rating := rateFind text.data, rmp_id := rmp_id }

/-! ### Numeric string parsing (`pd.to_numeric(..., errors="coerce")`),
modelled exactly over the rationals for decimal-numeral inputs -/

/-- Unsigned decimal mantissa: `123`, `123.`, `123.45`, `.45`; returns the
numerator over `10 ^ fpLen`, the fractional length `fpLen` and the unconsumed
rest. -/
def parseMantissa (cs : List Char) : Option (Nat × Nat × List Char) :=
  let ip := cs.takeWhile Char.isDigit
  let rest1 := cs.dropWhile Char.isDigit
  match rest1 with
  | '.' :: rest2 =>
    let fp := rest2.takeWhile Char.isDigit
    let rest3 := rest2.dropWhile Char.isDigit
    if ip.isEmpty && fp.isEmpty then none
    else some (digitsToNat ip * 10 ^ fp.length + digitsToNat fp, fp.length, rest3)
  | _ => if ip.isEmpty then none else some (digitsToNat ip, 0, rest1)

/-- Exponent digits: the whole rest must be a nonempty digit run. -/
def expDigits (cs : List Char) : Option Int :=
  if cs ≠ [] && cs.all Char.isDigit then some (digitsToNat cs : Int) else none

/-- Optional sign and digits of an exponent part. -/
def expPart : List Char → Option Int
  | '+' :: r => expDigits r
  | '-' :: r => (expDigits r).map Neg.neg
  | r => expDigits r

/-- `pd.to_numeric(s, errors="coerce")` on a decimal-numeral string:
optional surrounding whitespace, optional sign, decimal mantissa, optional
exponent; anything else coerces to null (`none`).  Values are exact
rationals. -/
def parseNum (s : String) : Option ℚ :=
  let cs := pyStripL s.data
  let sgn : Int := match cs with
    | '-' :: _ => -1
    | _ => 1
  let cs1 := match cs with
    | '+' :: r => r
    | '-' :: r => r
    | _ => cs
  match parseMantissa cs1 with
  | none => none
  | some (n, fpLen, rest) =>
    let val : Int → ℚ := fun ex =>
      if 0 ≤ ex then mkRat (sgn * (n : Int) * (10 : Int) ^ ex.toNat) (10 ^ fpLen)
      else mkRat (sgn * (n : Int)) (10 ^ fpLen * 10 ^ (-ex).toNat)
    match rest with
    | [] => some (val 0)
    | e :: r1 =>
      if e = 'e' || e = 'E' then
        match expPart r1 with
        | some k => some (val k)
        | none => none
      else none

/-- The would_take_again rescaling rule of `clean_and_store_data.py`
(`lambda x: x / 100 if pd.notna(x) and x > 1 else x`) and of the
`standardization_sql` `CASE` expression. -/
def wtaRule (x : ℚ) : ℚ := if x > 1 then x / 100 else x

/-- The WOULD TAKE AGAIN normalization of `clean_and_store_data`:
`pd.to_numeric(..., errors="coerce")` followed by the rescaling rule; a null
cell stays null. -/
def clean_would_take_again (s : Option String) : Option ℚ :=
  match s with
  | none => none
  | some str =>
    match parseNum str with
    | none => none
    | some x => some (wtaRule x)

/-! ### The rmp_id merge of `scrape_professor_ratings_table`
(scrape_professor_ratings.py, lines 127-135) -/

/-- A row of the enriched PDF table (`APP_PROCESSED_PDFS`) as the DataFrame
entering the merge, with lower-cased column names. -/
structure MergeRow where
  filename : String
  professor : String
  semester : String
  course_code : String
  section_ : String
  course_name : String
  overall_rating : Option ℚ
  rmp_id : Option Int
deriving Repr, DecidableEq

/-- A row of the auxiliary `input.csv` table: course code and rmp_id. -/
structure AuxRow where
  course_code : String
  rmp_id : Option Int
deriving Repr, DecidableEq

/-- The merge step of `scrape_professor_ratings_table`: both course-code
columns are `str.strip`ped, a left merge on `course_code` fans out over all
matching auxiliary rows, and then
`df['rmp_id'] = df['rmp_id_csv'].combine_first(df['rmp_id'])` takes the
auxiliary id where it is non-null and the row's own id otherwise. -/
def merge_rmp_ids (rows : List MergeRow) (aux : List AuxRow) : List MergeRow :=
  rows.flatMap (fun r =>
    let r' := { r with course_code := pyStrip r.course_code }
    let ms := aux.filter (fun a => decide (pyStrip a.course_code = r'.course_code))
    match ms with
    | [] => [r']
    | _ :: _ => ms.map (fun a =>
        { r' with rmp_id := match a.rmp_id with
            | some v => some v
            | none => r.rmp_id }))

/-! ### The duplicate resolver and scale transform of `standardization_sql`
(app_data_pipeline.py) -/

/-- Snowflake `TRIM`: drop leading and trailing whitespace. -/
def sqlTrim (s : String) : String :=
  ((s.data.dropWhile isPyWS).reverse.dropWhile isPyWS).reverse.asString

/-- Split a character list on the single-space delimiter (the field list is
never empty). -/
def splitOnSpace : List Char → List (List Char)
  | [] => [[]]
  | c :: rest =>
    match splitOnSpace rest with
    | [] => [[]]
    | g :: gs => if c = ' ' then [] :: g :: gs else (c :: g) :: gs

/-- `SPLIT_PART(s, ' ', -1)`: the last field of `s` split on the single-space
delimiter (the whole string when it holds no space). -/
def lastSpacePart (s : String) : String := ((splitOnSpace s.data).getLastD []).asString

/-- A row of `MY_WASHU_COURSES_WITH_RATINGS` entering `standardization_sql`.
Identity columns are strings ("Unknown"-defaulted upstream); rating columns
and COURSE_NAME are nullable. -/
structure EnrichedRecord where
  filename : String
  professor : String
  semester : String
  course_code : String
  section_ : String
  course_name : Option String
  overall_rating : Option ℚ
  rmp_id : Option Int
  scraped_overall_rating : Option ℚ
  would_take_again : Option ℚ
  difficulty : Option ℚ
  tags : Option String
deriving Repr, DecidableEq

/-- The `PARTITION BY` identity key of the deduplication window:
`(SPLIT_PART(TRIM(PROFESSOR),' ',-1), TRIM(COURSE_CODE), TRIM(SEMESTER),
TRIM(SECTION))`. -/
def keyOf (r : EnrichedRecord) : String × String × String × String :=
  (lastSpacePart (sqlTrim r.professor), sqlTrim r.course_code,
    sqlTrim r.semester, sqlTrim r.section_)

/-- The `ORDER BY` rank of the deduplication window, encoded lexicographically
as one natural number: a non-null in-document rating, then a non-null scraped
rating, then a non-null course name, present before missing. -/
def rankOf (r : EnrichedRecord) : Nat :=
  (if r.overall_rating = none then 4 else 0)
    + (if r.scraped_overall_rating = none then 2 else 0)
    + (if r.course_name = none then 1 else 0)

/-- First element of an (index, row) list minimizing the rank; on ties the
earlier element wins (`ROW_NUMBER`'s otherwise unspecified tie order
determinized as a stable choice). -/
def pickMin : List (Nat × EnrichedRecord) → Option (Nat × EnrichedRecord)
  | [] => none
  | p :: ps =>
    match pickMin ps with
    | none => some p
    | some q => if rankOf p.2 ≤ rankOf q.2 then some p else some q

/-- The rows of the window partition with key `k`. -/
def groupOf (ps : List (Nat × EnrichedRecord)) (k : String × String × String × String) :
    List (Nat × EnrichedRecord) :=
  ps.filter (fun q => decide (keyOf q.2 = k))

/-- The deduplication of `standardization_sql`: `ROW_NUMBER() OVER
(PARTITION BY identity key ORDER BY rank)` followed by `WHERE ROW_RANK = 1` —
each row survives exactly when it is its partition's rank-minimal row. -/
def resolveDuplicates (rs : List EnrichedRecord) : List EnrichedRecord :=
  let ps := rs.enum
  (ps.filter (fun p => decide (pickMin (groupOf ps (keyOf p.2)) = some p))).map Prod.snd

/-- The `NORMALIZED_RMP_RATING` expression of `standardization_sql`:
`CASE WHEN r IS NOT NULL THEN (r - 1) * (6/4) + 1 ELSE NULL END`. -/
def scaleTransform : Option ℚ → Option ℚ
  | some r => some ((r - 1) * (6 / 4) + 1)
  | none => none

/-! ### The rating-page field extractor (`scrape_professor_rating`,
scrape_professor_ratings.py) -/

/-- The DOM query results of one fetched rating page: the text of the first
`RatingValue__Numerator` node (if any), the texts of the
`FeedbackItem__FeedbackNumber` nodes in document order, and the texts of the
`Tag` nodes.  The page is `none` at the caller on a non-200 response or a
parse exception. -/
structure RatingPage where
  rating_node : Option String
  feedback_numbers : List String
  tag_texts : List String
deriving Repr, DecidableEq

/-- The dictionary built by `scrape_professor_rating`; the tag set is
modelled as a deduplicated list. -/
structure RatingInfo where
  rmp_id : String
  scraped_overall_rating : Option String
  would_take_again : Option String
  difficulty : Option String
  tags : List String
deriving Repr, DecidableEq

/-- `wt_again.replace('%', '')` guarded by `'%' in wt_again`. -/
def removePercent (s : String) : String :=
  if s.data.contains '%' then (s.data.filter (fun c => decide (c ≠ '%'))).asString else s

/-- `scrape_professor_rating(rmp_id)`: a falsy or null id, a failed fetch or
a parse exception yields `None`; otherwise the fields are populated from the
DOM query results — would_take_again and difficulty only when at least two
feedback-number nodes exist, taken positionally. -/
def scrape_professor_rating (rmp_id : Option String) (page : Option RatingPage) :
    Option RatingInfo :=
  match rmp_id with
  | none => none
  | some pid =>
    if pid = "" then none
    else
      match page with
      | none => none
      | some pg =>
        let base : RatingInfo :=
          { rmp_id := pid, scraped_overall_rating := none,
            would_take_again := none, difficulty := none, tags := [] }
        let r1 := match pg.rating_node with
          | some t => { base with scraped_overall_rating := some (pyStrip t) }
          | none => base
        let r2 :=
          if 2 ≤ pg.feedback_numbers.length then
            { r1 with
                would_take_again :=
                  some (removePercent (pyStrip (pg.feedback_numbers.getD 0 ""))),
                difficulty := some (pyStrip (pg.feedback_numbers.getD 1 "")) }
          else r1
        let r3 :=
          if pg.tag_texts ≠ [] then
            { r2 with tags := (pg.tag_texts.map (fun t => pyStrip t.toLower)).dedup }
          else r2
        some r3

/-! ### A claim-side definition for the semester rule (spec wording) -/

/-- The claim's semester condition, stated from the spec's own words: the
filename starts with a two-letter season code (`SP` or `FL`) immediately
followed by a 4-digit year; returns that code and that year. -/
def claimSeasonYear (s : String) : Option (String × String) :=
  match s.data with
  | c1 :: c2 :: y1 :: y2 :: y3 :: y4 :: _ =>
    if ((c1 = 'S' && c2 = 'P') || (c1 = 'F' && c2 = 'L'))
        && (y1.isDigit && y2.isDigit && y3.isDigit && y4.isDigit) then
      some (([c1, c2]).asString, ([y1, y2, y3, y4]).asString)
    else none
  | _ => none

/-! ### Concrete records used by counterexamples and witnesses -/

/-- A merge-input row carrying its own extracted rmp_id. -/
def cexRow : MergeRow :=
  { filename := "doc.pdf", professor := "Jane Doe", semester := "SP 2025",
    course_code := "CS101", section_ := "1", course_name := "Intro",
    overall_rating := none, rmp_id := some 5 }

/-- An auxiliary row matching `cexRow`'s course code with a different id. -/
def cexAux : AuxRow := { course_code := "CS101", rmp_id := some 9 }

/-- A standardization row with an in-document rating. -/
def dupA : EnrichedRecord :=
  { filename := "a.pdf", professor := "Jane A Doe", semester := "SP 2025",
    course_code := "CS101", section_ := "1", course_name := some "Intro",
    overall_rating := some 4, rmp_id := none, scraped_overall_rating := none,
    would_take_again := none, difficulty := none, tags := none }

/-- A row with the same identity key as `dupA` but no in-document rating. -/
def dupB : EnrichedRecord :=
  { dupA with filename := "b.pdf", professor := "Doe", overall_rating := none }

/-- A standardization row, key distinct from `idemB`'s. -/
def idemA : EnrichedRecord :=
  { filename := "a.pdf", professor := "Jane Doe", semester := "SP 2025",
    course_code := "CS101", section_ := "1", course_name := none,
    overall_rating := some 4, rmp_id := none, scraped_overall_rating := none,
    would_take_again := none, difficulty := none, tags := none }

/-- A standardization row, key distinct from `idemA`'s. -/
def idemB : EnrichedRecord :=
  { idemA with filename := "b.pdf", course_code := "MATH233", overall_rating := none }

/-- A rating page with exactly one feedback-number node. -/
def pageOne : RatingPage :=
  { rating_node := some "3.9", feedback_numbers := ["75%"], tag_texts := [] }

/-- The dictionary the extractor returns for `pageOne`. -/
def infoOne : RatingInfo :=
  { rmp_id := "7", scraped_overall_rating := some "3.9", would_take_again := none,
    difficulty := none, tags := [] }

/-- A rating page with two feedback-number nodes. -/
def pageTwo : RatingPage :=
  { rating_node := none, feedback_numbers := ["75%", "2.1"], tag_texts := [] }

/-- The dictionary the extractor returns for `pageTwo`. -/
def infoTwo : RatingInfo :=
  { rmp_id := "7", scraped_overall_rating := none, would_take_again := some "75",
    difficulty := some "2.1", tags := [] }

/-! ### Helper lemmas -/

theorem pickMin_eq_none {l : List (Nat × EnrichedRecord)} :
    pickMin l = none ↔ l = [] := by
  cases l with
  | nil => simp [pickMin]
  | cons p ps =>
    simp only [pickMin]
    cases h : pickMin ps <;> simp [h]
    split <;> simp

theorem pickMin_mem {l : List (Nat × EnrichedRecord)} {m : Nat × EnrichedRecord}
    (h : pickMin l = some m) : m ∈ l := by
  induction l with
  | nil => simp [pickMin] at h
  | cons p ps ih =>
    rw [pickMin] at h
    cases hp : pickMin ps with
    | none =>
      simp only [hp] at h
      injection h with h2
      subst h2
      exact List.mem_cons_self _ _
    | some q =>
      simp only [hp] at h
      by_cases hr : rankOf p.2 ≤ rankOf q.2
      · rw [if_pos hr] at h
        injection h with h2
        subst h2
        exact List.mem_cons_self _ _
      · rw [if_neg hr] at h
        exact List.mem_cons_of_mem _ (ih (hp.trans h))

theorem claimSeasonYear_eq_semFind (s : String) : claimSeasonYear s = semFind s.data := by
  rcases h : s.data with _ | ⟨c1, _ | ⟨c2, _ | ⟨y1, _ | ⟨y2, _ | ⟨y3, _ | ⟨y4, rest⟩⟩⟩⟩⟩⟩ <;>
    simp [claimSeasonYear, semFind, h]

theorem countP_eq_one_of_nodup {α : Type} [DecidableEq α] {l : List α} {a : α}
    (hn : l.Nodup) (ha : a ∈ l) :
    l.countP (fun x => decide (x = a)) = 1 := by
  induction l with
  | nil => simp at ha
  | cons b t ih =>
    rw [List.countP_cons]
    rcases List.mem_cons.mp ha with h | h
    · subst h
      have ht : t.countP (fun x => decide (x = a)) = 0 :=
        List.countP_eq_zero.mpr (by
          intro x hx
          simp only [decide_eq_true_eq]
          intro hxa
          exact (List.nodup_cons.mp hn).1 (hxa ▸ hx))
      simp [ht]
    · have hba : ¬ (b = a) := by
        intro hba
        exact (List.nodup_cons.mp hn).1 (hba ▸ h)
      rw [ih (List.nodup_cons.mp hn).2 h]
      simp [hba]

theorem asString_data (l : List Char) : (l.asString).data = l := rfl

theorem enum_nodup (rs : List EnrichedRecord) : rs.enum.Nodup :=
  List.Nodup.of_map Prod.fst (by rw [List.enum_map_fst]; exact List.nodup_range _)

theorem filter_key_singleton {l : List (Nat × EnrichedRecord)}
    (hn : (l.map (fun p => keyOf p.2)).Nodup) {p : Nat × EnrichedRecord} (hp : p ∈ l) :
    l.filter (fun q => decide (keyOf q.2 = keyOf p.2)) = [p] := by
  induction l with
  | nil => simp at hp
  | cons b tl ih =>
    rw [List.map_cons, List.nodup_cons] at hn
    rcases List.mem_cons.mp hp with h | h
    · subst h
      rw [List.filter_cons, if_pos (by simp)]
      have htl : tl.filter (fun q => decide (keyOf q.2 = keyOf p.2)) = [] := by
        rw [List.filter_eq_nil_iff]
        intro q hq
        simp only [decide_eq_true_eq]
        intro heq
        exact hn.1 (heq ▸ List.mem_map.mpr ⟨q, hq, rfl⟩)
      rw [htl]
    · have hb : ¬ (keyOf b.2 = keyOf p.2) := by
        intro heq
        exact hn.1 (heq ▸ List.mem_map.mpr ⟨p, h, rfl⟩)
      rw [List.filter_cons, if_neg (by simpa using hb)]
      exact ih hn.2 h

theorem tryDown_eq_some {α : Type} {f : Nat → Option α} {n : Nat} {r : α}
    (h : tryDown f n = some r) : ∃ k, f k = some r := by
  induction n with
  | zero => simp [tryDown] at h
  | succ n ih =>
    rw [tryDown] at h
    cases hf : f (n + 1) with
    | some v =>
      simp only [hf] at h
      exact ⟨n + 1, by rw [hf, h]⟩
    | none =>
      simp only [hf] at h
      exact ih h

theorem runLen_le_length (p : Char → Bool) (cs : List Char) :
    runLen p cs ≤ cs.length := by
  induction cs with
  | nil => simp [runLen]
  | cons c rest ih =>
    rw [runLen]
    split
    · simpa using ih
    · simp

theorem runLen_take_all (p : Char → Bool) (cs : List Char) :
    (cs.take (runLen p cs)).all p = true := by
  induction cs with
  | nil => rfl
  | cons c rest ih =>
    rw [runLen]
    split
    · rw [List.take_succ_cons, List.all_cons]
      simp only [ih, Bool.and_true]
      assumption
    · simp

theorem matchDigits_section {w cs : List Char} {cc sec : String}
    (h : matchDigits w cs = some (cc, sec)) :
    sec ≠ "" ∧ sec.data.all Char.isDigit = true := by
  simp only [matchDigits] at h
  by_cases hd : runLen Char.isDigit cs = 0
  · rw [if_pos hd] at h
    exact absurd h (by simp)
  · rw [if_neg hd] at h
    have hsec : sec = (cs.take (runLen Char.isDigit cs)).asString := by
      injection h with h1
      exact (Prod.mk.injEq _ _ _ _ ▸ h1).2.symm
    constructor
    · intro he
      rw [hsec] at he
      have hdata := congrArg String.data he
      rw [asString_data] at hdata
      have hlen := congrArg List.length hdata
      rw [List.length_take] at hlen
      have hle := runLen_le_length Char.isDigit cs
      have hlen' : min (runLen Char.isDigit cs) cs.length = 0 := by simpa using hlen
      omega
    · rw [hsec]
      exact runLen_take_all Char.isDigit cs

theorem matchSep2_section {w cs : List Char} {cc sec : String}
    (h : matchSep2 w cs = some (cc, sec)) :
    sec ≠ "" ∧ sec.data.all Char.isDigit = true := by
  obtain ⟨k, hk⟩ := tryDown_eq_some h
  exact matchDigits_section hk

theorem matchWord_section {cs : List Char} {cc sec : String}
    (h : matchWord cs = some (cc, sec)) :
    sec ≠ "" ∧ sec.data.all Char.isDigit = true := by
  obtain ⟨k, hk⟩ := tryDown_eq_some h
  exact matchSep2_section hk

theorem matchAnchorTail_section {cs : List Char} {cc sec : String}
    (h : matchAnchorTail cs = some (cc, sec)) :
    sec ≠ "" ∧ sec.data.all Char.isDigit = true := by
  obtain ⟨k, hk⟩ := tryDown_eq_some h
  exact matchWord_section hk

theorem crsFind_section {cs : List Char} {cc sec : String}
    (h : crsFind cs = some (cc, sec)) :
    sec ≠ "" ∧ sec.data.all Char.isDigit = true := by
  induction cs with
  | nil => simp [crsFind] at h
  | cons c rest ih =>
    rw [crsFind] at h
    split at h
    · cases hm : matchAnchorTail ((c :: rest).drop 3) with
      | some r =>
        simp only [hm] at h
        exact matchAnchorTail_section (hm.trans h)
      | none =>
        simp only [hm] at h
        exact ih h
    · exact ih h

/-! ### Claim theorems -/

/-- C2 (counterexample): the raw input "150" parses to 150, is greater
than 1, and normalizes to 150/100 = 3/2, which lies outside [0,1]; so the
normalized would_take_again value is not always null-or-in-[0,1]. -/
theorem wta_range_counterexample :
    clean_would_take_again (some "150") = some (3 / 2) ∧ ¬ ((3 / 2 : ℚ) ≤ 1) := by
  have hp : parseNum "150" = some 150 := by decide
  exact ⟨by norm_num [clean_would_take_again, hp, wtaRule], by norm_num⟩

/-- C2 (amended): whenever the raw would_take_again string parses to a value
in [0,100], the normalized value is in [0,1]; unparseable or null input
normalizes to null.  (Parsed values outside [0,100] can leave [0,1].) -/
theorem wta_range_amended :
    (∀ (s : String) (x : ℚ), parseNum s = some x → 0 ≤ x → x ≤ 100 →
        ∃ y, clean_would_take_again (some s) = some y ∧ 0 ≤ y ∧ y ≤ 1)
      ∧ (∀ s, parseNum s = none → clean_would_take_again (some s) = none)
      ∧ clean_would_take_again none = none := by
  refine ⟨?_, ?_, rfl⟩
  · intro s x hp h0 h100
    refine ⟨wtaRule x, by simp [clean_would_take_again, hp], ?_, ?_⟩
    · unfold wtaRule
      split
      · positivity
      · exact h0
    · unfold wtaRule
      split
      · rw [div_le_one (by norm_num : (0 : ℚ) < 100)]; exact h100
      · linarith [not_lt.mp (by assumption : ¬ x > 1)]
  · intro s h
    simp [clean_would_take_again, h]

/-- C2 (amended, witness): at the input "82", which parses to 82 in
[0,100], the normalized value 0.82 exists in [0,1]. -/
theorem wta_range_amended_witness :
    ∃ y, clean_would_take_again (some "82") = some y ∧ 0 ≤ y ∧ y ≤ 1 :=
  wta_range_amended.1 "82" 82 (by decide) (by norm_num) (by norm_num)

/-- C3: would_take_again normalization parses the input and divides by 100
exactly when the parsed value exceeds 1: "82" maps to 0.82, "0.82" to 0.82,
"100" to 1, null and unparseable input to null; values at most 1 pass
through unchanged, and on the percentage domain [0,100] the rule is
idempotent, so no input is divided twice. -/
theorem wta_parse_divide_rule :
    clean_would_take_again (some "82") = some (82 / 100)
      ∧ clean_would_take_again (some "0.82") = some (82 / 100)
      ∧ clean_would_take_again (some "100") = some 1
      ∧ clean_would_take_again none = none
      ∧ (∀ s, parseNum s = none → clean_would_take_again (some s) = none)
      ∧ (∀ x : ℚ, 1 < x → wtaRule x = x / 100)
      ∧ (∀ x : ℚ, x ≤ 1 → wtaRule x = x)
      ∧ (∀ x : ℚ, 0 ≤ x → x ≤ 100 → wtaRule (wtaRule x) = wtaRule x) := by
  have h82 : parseNum "82" = some 82 := by decide
  have h082 : parseNum "0.82" = some (mkRat 82 100) := by decide
  have h100 : parseNum "100" = some 100 := by decide
  refine ⟨by norm_num [clean_would_take_again, h82, wtaRule],
    by norm_num [clean_would_take_again, h082, wtaRule, Rat.mkRat_eq_div],
    by norm_num [clean_would_take_again, h100, wtaRule], rfl, ?_, ?_, ?_, ?_⟩
  · intro s h
    simp [clean_would_take_again, h]
  · intro x h
    simp [wtaRule, h]
  · intro x h
    simp [wtaRule, not_lt.mpr h]
  · intro x h0 h100
    by_cases h : 1 < x
    · have hx : wtaRule x = x / 100 := by simp [wtaRule, h]
      rw [hx]
      have hle : ¬ (1 : ℚ) < x / 100 := by
        rw [not_lt, div_le_one (by norm_num : (0 : ℚ) < 100)] at *
        linarith
      simp [wtaRule, hle]
    · simp [wtaRule, h]

/-- C3 (witness): the quantified conjuncts instantiated: "junk" is
unparseable and maps to null; 82 is divided, 0.5 passes through, and the
rule is idempotent at 82. -/
theorem wta_parse_divide_rule_witness :
    clean_would_take_again (some "junk") = none
      ∧ wtaRule 82 = 82 / 100
      ∧ wtaRule (1 / 2) = 1 / 2
      ∧ wtaRule (wtaRule 82) = wtaRule 82 :=
  ⟨wta_parse_divide_rule.2.2.2.2.1 "junk" (by decide),
    wta_parse_divide_rule.2.2.2.2.2.1 82 (by norm_num),
    wta_parse_divide_rule.2.2.2.2.2.2.1 (1 / 2) (by norm_num),
    wta_parse_divide_rule.2.2.2.2.2.2.2 82 (by norm_num) (by norm_num)⟩

/-- C5: the scale transformer maps rating r to (r-1)*(6/4)+1 exactly:
1 to 1, 3 to 4, 5 to 7, 3.9 to 5.35, null to null, and it is monotone
non-decreasing on the 1-5 domain. -/
theorem scale_transform_spec :
    scaleTransform (some 1) = some 1
      ∧ scaleTransform (some 3) = some 4
      ∧ scaleTransform (some 5) = some 7
      ∧ scaleTransform (some (39 / 10)) = some (107 / 20)
      ∧ scaleTransform none = none
      ∧ (∀ x y : ℚ, 1 ≤ x → x ≤ 5 → 1 ≤ y → y ≤ 5 → x ≤ y →
          ∃ u v, scaleTransform (some x) = some u
            ∧ scaleTransform (some y) = some v ∧ u ≤ v) := by
  refine ⟨by norm_num [scaleTransform], by norm_num [scaleTransform],
    by norm_num [scaleTransform], by norm_num [scaleTransform], rfl, ?_⟩
  intro x y _ _ _ _ hxy
  exact ⟨(x - 1) * (6 / 4) + 1, (y - 1) * (6 / 4) + 1, rfl, rfl, by linarith⟩

/-- C5 (witness): monotonicity instantiated at 2 and 3. -/
theorem scale_transform_spec_witness :
    ∃ u v, scaleTransform (some 2) = some u ∧ scaleTransform (some 3) = some v ∧ u ≤ v :=
  scale_transform_spec.2.2.2.2.2 2 3 (by norm_num) (by norm_num) (by norm_num)
    (by norm_num) (by norm_num)

/-- C1 (counterexample): a fragment with its own extracted id 5 whose course
code matches an auxiliary row holding id 9 comes out of the merge with id 9:
the auxiliary id overrides the fragment's non-null extracted id rather than
acting as a fallback. -/
theorem merge_fallback_counterexample :
    cexRow.rmp_id = some 5
      ∧ (merge_rmp_ids [cexRow] [cexAux]).map MergeRow.rmp_id = [some 9]
      ∧ (merge_rmp_ids [cexRow] [cexAux]).map MergeRow.rmp_id ≠ [cexRow.rmp_id] :=
  ⟨rfl, by decide, by decide⟩

/-- C1 (amended): in the cross-source merge the auxiliary table's id takes
precedence: with no course-code match (exact, whitespace-trimmed,
case-sensitive) the fragment keeps its own id; with a matching row the
merged id is the auxiliary id whenever that is non-null — even when the
fragment's own id is non-null — and the fragment's id only when the
auxiliary id is null. -/
theorem merge_precedence_amended :
    (∀ (r : MergeRow) (aux : List AuxRow),
        (∀ a ∈ aux, pyStrip a.course_code ≠ pyStrip r.course_code) →
        merge_rmp_ids [r] aux = [{ r with course_code := pyStrip r.course_code }])
      ∧ (∀ (r : MergeRow) (a : AuxRow) (v : Int),
          pyStrip a.course_code = pyStrip r.course_code → a.rmp_id = some v →
          merge_rmp_ids [r] [a]
            = [{ r with course_code := pyStrip r.course_code, rmp_id := some v }])
      ∧ (∀ (r : MergeRow) (a : AuxRow),
          pyStrip a.course_code = pyStrip r.course_code → a.rmp_id = none →
          merge_rmp_ids [r] [a] = [{ r with course_code := pyStrip r.course_code }]) := by
  refine ⟨?_, ?_, ?_⟩
  · intro r aux h
    have hf : aux.filter
        (fun a => decide (pyStrip a.course_code = pyStrip r.course_code)) = [] := by
      rw [List.filter_eq_nil_iff]
      intro a ha
      simpa using h a ha
    simp [merge_rmp_ids, hf]
  · intro r a v hc hv
    simp [merge_rmp_ids, hc, hv]
  · intro r a hc hv
    simp [merge_rmp_ids, hc, hv]

/-- C1 (amended, witness): the no-match, null-auxiliary and override cases
instantiated on concrete rows. -/
theorem merge_precedence_amended_witness :
    merge_rmp_ids [cexRow] [{ course_code := "MATH233", rmp_id := some 9 }]
      = [{ cexRow with course_code := pyStrip cexRow.course_code }]
      ∧ merge_rmp_ids [cexRow] [cexAux]
        = [{ cexRow with course_code := pyStrip cexRow.course_code, rmp_id := some 9 }]
      ∧ merge_rmp_ids [cexRow] [{ course_code := "CS101", rmp_id := none }]
        = [{ cexRow with course_code := pyStrip cexRow.course_code }] :=
  ⟨merge_precedence_amended.1 cexRow [{ course_code := "MATH233", rmp_id := some 9 }]
      (by intro a ha; simp at ha; subst ha; decide),
    merge_precedence_amended.2.1 cexRow cexAux 9 (by decide) rfl,
    merge_precedence_amended.2.2 cexRow { course_code := "CS101", rmp_id := none }
      (by decide) rfl⟩

/-- C10: in every rating dictionary the extractor returns, would_take_again
and difficulty are both null or both non-null: with at least two
feedback-number nodes both are populated positionally from the first two
nodes (the percent sign stripped from the first); with fewer than two nodes
(in particular exactly one) both stay null. -/
theorem rating_fields_joint (rid : Option String) (page : Option RatingPage)
    (info : RatingInfo) (h : scrape_professor_rating rid page = some info) :
    (info.would_take_again = none ↔ info.difficulty = none)
      ∧ (∀ pg, page = some pg → 2 ≤ pg.feedback_numbers.length →
          info.would_take_again
              = some (removePercent (pyStrip (pg.feedback_numbers.getD 0 "")))
            ∧ info.difficulty = some (pyStrip (pg.feedback_numbers.getD 1 "")))
      ∧ (∀ pg, page = some pg → pg.feedback_numbers.length < 2 →
          info.would_take_again = none ∧ info.difficulty = none) := by
  rcases rid with _ | pid
  · simp [scrape_professor_rating] at h
  rcases page with _ | pg
  · by_cases hpid : pid = "" <;> simp [scrape_professor_rating, hpid] at h
  by_cases hpid : pid = ""
  · simp [scrape_professor_rating, hpid] at h
  have hfields :
      info.would_take_again
          = (if 2 ≤ pg.feedback_numbers.length then
              some (removePercent (pyStrip (pg.feedback_numbers.getD 0 ""))) else none)
        ∧ info.difficulty
          = (if 2 ≤ pg.feedback_numbers.length then
              some (pyStrip (pg.feedback_numbers.getD 1 "")) else none) := by
    by_cases hlen : 2 ≤ pg.feedback_numbers.length <;>
      by_cases htg : pg.tag_texts = [] <;>
        rcases hrn : pg.rating_node with _ | tnode <;>
          · simp [scrape_professor_rating, hpid, hlen, htg, hrn] at h
            subst h
            simp [hlen]
  refine ⟨?_, ?_, ?_⟩
  · by_cases hlen : 2 ≤ pg.feedback_numbers.length <;>
      simp [hfields.1, hfields.2, hlen]
  · intro pg' hpg hlen
    injection hpg with hpg
    subst hpg
    simp [hfields.1, hfields.2, hlen]
  · intro pg' hpg hlen
    injection hpg with hpg
    subst hpg
    simp [hfields.1, hfields.2, not_le.mpr hlen]

/-- C10 (witness): a page with exactly one feedback-number node leaves both
fields null, and a page with two nodes populates both positionally. -/
theorem rating_fields_joint_witness :
    (infoOne.would_take_again = none ∧ infoOne.difficulty = none)
      ∧ infoTwo.would_take_again = some "75" ∧ infoTwo.difficulty = some "2.1" :=
  have h1 := (rating_fields_joint (some "7") (some pageOne) infoOne
    (by decide)).2.2 pageOne rfl (by decide)
  have h2 := (rating_fields_joint (some "7") (some pageTwo) infoTwo
    (by decide)).2.1 pageTwo rfl (by decide)
  ⟨h1, h2.1.trans (by decide), h2.2.trans (by decide)⟩

/-- C6: the extractor is a total function into complete CourseFragments (it
cannot raise in this embedding); every field whose pattern fails to match
takes its default — "Unknown" for professor, semester, course code, section
and course name, null for the external id and the rating — and the
unreadable-bytes path is the empty-text path, on which both text-derived
fields are defaulted. -/
theorem extractor_defaults (t : Option String) (fn : String) :
    (profFind (pyStrip fn).data = none →
        (extract_course_info_from_bytes t fn).professor = "Unknown")
      ∧ (semFind (pyStrip fn).data = none →
          (extract_course_info_from_bytes t fn).semester = "Unknown")
      ∧ (crsFind (pyStrip fn).data = none →
          (extract_course_info_from_bytes t fn).course_code = "Unknown"
            ∧ (extract_course_info_from_bytes t fn).section_ = "Unknown")
      ∧ (rmpFind (pyStrip fn).data = none →
          (extract_course_info_from_bytes t fn).rmp_id = none)
      ∧ (nameFind (textOf t).data = none →
          (extract_course_info_from_bytes t fn).course_name = "Unknown")
      ∧ (rateFind (textOf t).data = none →
          (extract_course_info_from_bytes t fn).overall_rating = none)
      ∧ extract_course_info_from_bytes none fn = extract_course_info_from_bytes (some "") fn
      ∧ (extract_course_info_from_bytes none fn).course_name = "Unknown"
      ∧ (extract_course_info_from_bytes none fn).overall_rating = none := by
  refine ⟨?_, ?_, ?_, ?_, ?_, ?_, rfl, rfl, rfl⟩
  · intro h
    simp [extract_course_info_from_bytes, h]
  · intro h
    simp [extract_course_info_from_bytes, h]
  · intro h
    constructor <;> simp [extract_course_info_from_bytes, h]
  · intro h
    simp [extract_course_info_from_bytes, h]
  · intro h
    simp [extract_course_info_from_bytes, h]
  · intro h
    simp [extract_course_info_from_bytes, h]

/-- C6 (witness): on the pattern-free filename "paper.pdf" with unreadable
bytes every pattern fails and every field is its default. -/
theorem extractor_defaults_witness :
    profFind (pyStrip "paper.pdf").data = none
      ∧ (extract_course_info_from_bytes none "paper.pdf").professor = "Unknown"
      ∧ (extract_course_info_from_bytes none "paper.pdf").semester = "Unknown"
      ∧ (extract_course_info_from_bytes none "paper.pdf").course_code = "Unknown"
      ∧ (extract_course_info_from_bytes none "paper.pdf").section_ = "Unknown"
      ∧ (extract_course_info_from_bytes none "paper.pdf").rmp_id = none
      ∧ (extract_course_info_from_bytes none "paper.pdf").course_name = "Unknown"
      ∧ (extract_course_info_from_bytes none "paper.pdf").overall_rating = none :=
  ⟨by decide,
    (extractor_defaults none "paper.pdf").1 (by decide),
    (extractor_defaults none "paper.pdf").2.1 (by decide),
    ((extractor_defaults none "paper.pdf").2.2.1 (by decide)).1,
    ((extractor_defaults none "paper.pdf").2.2.1 (by decide)).2,
    (extractor_defaults none "paper.pdf").2.2.2.1 (by decide),
    (extractor_defaults none "paper.pdf").2.2.2.2.1 (by decide),
    (extractor_defaults none "paper.pdf").2.2.2.2.2.1 (by decide)⟩

/-- C8 (counterexample): the filename " SP2025" does not itself start with a
season code (its first character is a space), yet the extractor — which
strips the filename first — returns semester "SP 2025", not "Unknown". -/
theorem semester_start_counterexample :
    claimSeasonYear " SP2025" = none
      ∧ (extract_course_info_from_bytes none " SP2025").semester = "SP 2025" :=
  ⟨by decide, by decide⟩

/-- C8 (amended): for every filename whose whitespace-trimmed form starts
with a two-letter season code immediately followed by a 4-digit year, the
semester field is the code and the year joined by a single space; otherwise
it is "Unknown".  (The trimming is the one amendment the counterexample
forces.) -/
theorem semester_extraction_amended (t : Option String) (fn : String) :
    (∀ c y, claimSeasonYear (pyStrip fn) = some (c, y) →
        (extract_course_info_from_bytes t fn).semester = c ++ " " ++ y)
      ∧ (claimSeasonYear (pyStrip fn) = none →
          (extract_course_info_from_bytes t fn).semester = "Unknown") := by
  rw [claimSeasonYear_eq_semFind]
  constructor
  · intro c y h
    simp [extract_course_info_from_bytes, h]
  · intro h
    simp [extract_course_info_from_bytes, h]

/-- C9 (counterexample): on the filename "L24.Unknown.1" the anchor pattern
matches with word token literally "Unknown", so the extractor returns
course_code "Unknown" together with the known section "1" — a known section
does not guarantee a known course code. -/
theorem course_section_counterexample :
    ¬ (∀ (t : Option String) (fn : String),
        (extract_course_info_from_bytes t fn).course_code = "Unknown" →
          (extract_course_info_from_bytes t fn).section_ = "Unknown") := by
  intro hall
  have h := hall none "L24.Unknown.1" (by decide)
  have h1 : (extract_course_info_from_bytes none "L24.Unknown.1").section_ = "1" := by
    decide
  rw [h1] at h
  exact absurd h (by decide)

/-- C9 (amended): course_code and section are determined jointly — both come
from the single anchor match or both are the default "Unknown"; any section
other than "Unknown" is a nonempty all-digit capture; and a course_code
other than "Unknown" never co-occurs with section "Unknown".  The converse
fails only when the matched word token is literally "Unknown" (the
counterexample). -/
theorem course_section_joint_amended (t : Option String) (fn : String) :
    ((∃ cc sec, crsFind (pyStrip fn).data = some (cc, sec)
        ∧ (extract_course_info_from_bytes t fn).course_code = cc
        ∧ (extract_course_info_from_bytes t fn).section_ = sec)
      ∨ (crsFind (pyStrip fn).data = none
        ∧ (extract_course_info_from_bytes t fn).course_code = "Unknown"
        ∧ (extract_course_info_from_bytes t fn).section_ = "Unknown"))
      ∧ ((extract_course_info_from_bytes t fn).section_ ≠ "Unknown" →
          (extract_course_info_from_bytes t fn).section_ ≠ ""
            ∧ (extract_course_info_from_bytes t fn).section_.data.all Char.isDigit = true)
      ∧ ((extract_course_info_from_bytes t fn).course_code ≠ "Unknown" →
          (extract_course_info_from_bytes t fn).section_ ≠ "Unknown") := by
  cases hc : crsFind (pyStrip fn).data with
  | none =>
    have hcc : (extract_course_info_from_bytes t fn).course_code = "Unknown" := by
      simp [extract_course_info_from_bytes, hc]
    have hs : (extract_course_info_from_bytes t fn).section_ = "Unknown" := by
      simp [extract_course_info_from_bytes, hc]
    exact ⟨Or.inr ⟨rfl, hcc, hs⟩, fun hne => absurd hs hne, fun hne => absurd hcc hne⟩
  | some r =>
    obtain ⟨cc, sec⟩ := r
    have hsec := crsFind_section hc
    have hne : sec ≠ "Unknown" := by
      intro he
      rw [he] at hsec
      exact absurd hsec.2 (by decide)
    have hcc : (extract_course_info_from_bytes t fn).course_code = cc := by
      simp [extract_course_info_from_bytes, hc]
    have hs : (extract_course_info_from_bytes t fn).section_ = sec := by
      simp [extract_course_info_from_bytes, hc]
    refine ⟨Or.inl ⟨cc, sec, rfl, hcc, hs⟩, fun _ => ?_, fun _ => ?_⟩
    · rw [hs]
      exact hsec
    · rw [hs]
      exact hne

/-- C9 (amended, witness): on "SP2025.L24.CS101.5.pdf" the course code
"CS101" is known, and the section "5" is a known nonempty digit string. -/
theorem course_section_joint_amended_witness :
    (extract_course_info_from_bytes none "SP2025.L24.CS101.5.pdf").section_ ≠ ""
      ∧ (extract_course_info_from_bytes
          none "SP2025.L24.CS101.5.pdf").section_.data.all Char.isDigit = true
      ∧ (extract_course_info_from_bytes none "SP2025.L24.CS101.5.pdf").section_ ≠ "Unknown" :=
  have h := course_section_joint_amended none "SP2025.L24.CS101.5.pdf"
  ⟨(h.2.1 (by decide)).1, (h.2.1 (by decide)).2, h.2.2 (by decide)⟩

/-- C7: the duplicate resolver is idempotent: on a set that already holds
one record per identity group (pairwise-distinct identity keys — exactly
the shape of the resolver's own output) it returns the set unchanged. -/
theorem resolver_idempotent (rs : List EnrichedRecord)
    (h : (rs.map keyOf).Nodup) : resolveDuplicates rs = rs := by
  have hmap : rs.enum.map (fun p => keyOf p.2) = rs.map keyOf := by
    have he : (fun p : Nat × EnrichedRecord => keyOf p.2) = keyOf ∘ Prod.snd := rfl
    rw [he, ← List.map_map, List.enum_map_snd]
  have hall : ∀ p ∈ rs.enum,
      (fun p => decide (pickMin (groupOf rs.enum (keyOf p.2)) = some p)) p = true := by
    intro p hp
    have hg : groupOf rs.enum (keyOf p.2) = [p] :=
      filter_key_singleton (by rw [hmap]; exact h) hp
    simp only [hg]
    simp [pickMin]
  show (rs.enum.filter
      (fun p => decide (pickMin (groupOf rs.enum (keyOf p.2)) = some p))).map Prod.snd = rs
  rw [List.filter_eq_self.mpr hall, List.enum_map_snd]

/-- C7 (witness): a two-record set with distinct identity keys is returned
unchanged. -/
theorem resolver_idempotent_witness :
    resolveDuplicates [idemA, idemB] = [idemA, idemB] :=
  resolver_idempotent [idemA, idemB] (by decide)

/-- C4: the duplicate resolver keeps exactly one record per identity group
(the key: last space-separated token of the trimmed professor, trimmed
course code, trimmed semester, trimmed section), and between two records
sharing a key of which exactly one has a non-null in-document rating, the
rated one is selected in either input order. -/
theorem resolver_selects_rated :
    (∀ (rs : List EnrichedRecord) (k : String × String × String × String),
        (∃ r ∈ rs, keyOf r = k) →
        (resolveDuplicates rs).countP (fun r => decide (keyOf r = k)) = 1)
      ∧ (∀ a b : EnrichedRecord, keyOf a = keyOf b →
          a.overall_rating ≠ none → b.overall_rating = none →
          resolveDuplicates [a, b] = [a] ∧ resolveDuplicates [b, a] = [a]) := by
  constructor
  · intro rs k hk
    obtain ⟨r, hr, hkr⟩ := hk
    obtain ⟨i, hi⟩ : ∃ i, ((i, r) : Nat × EnrichedRecord) ∈ rs.enum := by
      have h2 : r ∈ rs.enum.map Prod.snd := by rw [List.enum_map_snd]; exact hr
      obtain ⟨⟨i, r'⟩, hp, hpr⟩ := List.mem_map.mp h2
      simp only at hpr
      subst hpr
      exact ⟨i, hp⟩
    have hG : ((i, r) : Nat × EnrichedRecord) ∈ groupOf rs.enum k :=
      List.mem_filter.mpr ⟨hi, by simp [hkr]⟩
    obtain ⟨m, hm⟩ : ∃ m, pickMin (groupOf rs.enum k) = some m := by
      cases hpm : pickMin (groupOf rs.enum k) with
      | none =>
        rw [pickMin_eq_none] at hpm
        rw [hpm] at hG
        simp at hG
      | some m => exact ⟨m, rfl⟩
    have hmG : m ∈ groupOf rs.enum k := pickMin_mem hm
    have hmkey : keyOf m.2 = k := by
      have h3 := (List.mem_filter.mp hmG).2
      simpa using h3
    have hmps : m ∈ rs.enum := (List.mem_filter.mp hmG).1
    show ((rs.enum.filter
        (fun p => decide (pickMin (groupOf rs.enum (keyOf p.2)) = some p))).map
          Prod.snd).countP (fun r => decide (keyOf r = k)) = 1
    rw [List.countP_map, List.countP_filter]
    rw [List.countP_congr (q := fun p => decide (p = m)) ?_]
    · exact countP_eq_one_of_nodup (enum_nodup rs) hmps
    · intro p hp
      simp only [Function.comp, Bool.and_eq_true, decide_eq_true_eq]
      constructor
      · rintro ⟨hk1, hk2⟩
        rw [hk1] at hk2
        exact Option.some_inj.mp (hm.symm.trans hk2) |>.symm ▸ rfl
      · intro he
        subst he
        exact ⟨hmkey, by rw [hmkey]; exact hm⟩
  · intro a b hkey hra hrb
    have hrank : rankOf a < rankOf b := by
      unfold rankOf
      rw [if_neg hra, if_pos hrb]
      split_ifs <;> omega
    have hk2 : keyOf b = keyOf a := hkey.symm
    constructor
    · have hG : groupOf [((0 : Nat), a), ((1 : Nat), b)] (keyOf a)
          = [((0 : Nat), a), ((1 : Nat), b)] := by
        simp [groupOf, List.filter, hk2]
      have hpm : pickMin [((0 : Nat), a), ((1 : Nat), b)] = some ((0 : Nat), a) := by
        simp [pickMin, le_of_lt hrank]
      show (([((0 : Nat), a), ((1 : Nat), b)]).filter
          (fun p => decide (pickMin (groupOf [((0 : Nat), a), ((1 : Nat), b)] (keyOf p.2))
            = some p))).map Prod.snd = [a]
      simp [List.filter, hk2, hG, hpm]
    · have hG : groupOf [((0 : Nat), b), ((1 : Nat), a)] (keyOf a)
          = [((0 : Nat), b), ((1 : Nat), a)] := by
        simp [groupOf, List.filter, hk2]
      have hpm : pickMin [((0 : Nat), b), ((1 : Nat), a)] = some ((1 : Nat), a) := by
        simp [pickMin, not_le.mpr hrank]
      show (([((0 : Nat), b), ((1 : Nat), a)]).filter
          (fun p => decide (pickMin (groupOf [((0 : Nat), b), ((1 : Nat), a)] (keyOf p.2))
            = some p))).map Prod.snd = [a]
      simp [List.filter, hk2, hG, hpm]

/-- C4 (witness): between the concrete records `dupA` (rated) and `dupB`
(unrated, same identity key), the rated one is selected in both orders, and
the key group keeps exactly one record. -/
theorem resolver_selects_rated_witness :
    resolveDuplicates [dupA, dupB] = [dupA]
      ∧ resolveDuplicates [dupB, dupA] = [dupA]
      ∧ (resolveDuplicates [dupA, dupB]).countP
          (fun r => decide (keyOf r = keyOf dupA)) = 1 :=
  ⟨(resolver_selects_rated.2 dupA dupB (by decide) (by decide) rfl).1,
    (resolver_selects_rated.2 dupA dupB (by decide) (by decide) rfl).2,
    resolver_selects_rated.1 [dupA, dupB] (keyOf dupA)
      ⟨dupA, List.mem_cons_self _ _, rfl⟩⟩

/-- C8 (amended, witness): instantiated on "SP2025.L24.CS101.5.pdf" (the
season prefix) and on "paper.pdf" (no season prefix). -/
theorem semester_extraction_amended_witness :
    (extract_course_info_from_bytes none "SP2025.L24.CS101.5.pdf").semester = "SP 2025"
      ∧ (extract_course_info_from_bytes none "paperA.pdf").semester = "Unknown" :=
  ⟨(semester_extraction_amended none "SP2025.L24.CS101.5.pdf").1 "SP" "2025" (by decide),
    (semester_extraction_amended none "paperA.pdf").2 (by decide)⟩

end CourseCompass
